import Mathlib

/-!
Verification of the referee and time-slot scheduling core of the
`bracket-master` backend: the interval-conflict checker
(`check_slot_conflicts`), the referee availability resolver
(`get_available_referees_for_time_slot`), the bulk slot-grid generator
(`bulk_create_time_slots`), and the route-level assignment manager for
slots and referee-match links.

The Python source is shallowly embedded: timestamps become natural
numbers counting minutes, database tables become lists of records, and
each route handler becomes a pure function from a store state to a
result together with the next store state.  Python truthiness tests on
ids (`if exclude_slot_id:`, `if slot.match_id:`) are modelled exactly:
`None` and `0` are falsy, every other id is truthy.  Database-generated
primary keys start at 1, so theorems that depend on ids being nonzero
carry that fact as an explicit hypothesis.
-/

/-! ## Data model (bracket/models/db/time_slot.py, referee.py) -/

/-- Row of the `time_slots` table. -/
structure TimeSlot where
  id : Nat
  tournament_id : Nat
  court_id : Nat
  start_time : Nat
  end_time : Nat
  is_available : Bool
  match_id : Option Nat
deriving DecidableEq, Repr

/-- Request body of the single-slot create endpoint (`TimeSlotBody`):
it carries no `match_id` field at all. -/
structure TimeSlotBody where
  court_id : Nat
  start_time : Nat
  end_time : Nat
  is_available : Bool
deriving DecidableEq, Repr

/-- Row of the `referees` table (columns not consulted by the scheduling
logic are omitted). -/
structure Referee where
  id : Nat
  name : String
  active : Bool
deriving DecidableEq, Repr

/-- Row of the `referees_x_tournaments` availability bridge table. -/
structure RefereeAvailabilityRow where
  referee_id : Nat
  tournament_id : Nat
  available_from : Nat
  available_to : Nat
deriving DecidableEq, Repr

/-- Row of the `referees_x_matches` assignment table. -/
structure RefereeAssignment where
  referee_id : Nat
  match_id : Nat
  role : String
  confirmed : Bool
  notes : Option String
deriving DecidableEq, Repr

/-- Row of the external `matches` table, restricted to the columns read
by the referee conflict query. -/
structure MatchRow where
  id : Nat
  start_time : Nat
  duration_minutes : Nat
  margin_minutes : Nat
deriving DecidableEq, Repr

/-- Python truthiness of an optional integer id: `None` and `0` are
falsy, everything else truthy. -/
def truthyId : Option Nat → Bool
  | none => false
  | some i => i != 0

/-! ## Conflict checker (bracket/sql/time_slots.py, check_slot_conflicts) -/

/-- The `check_slot_conflicts` query: slots of the same
`(tournament_id, court_id)` whose interval strictly overlaps the
proposal (`start_time < end_time` of the proposal and conversely), with
the excluded slot filtered out when the `exclude_slot_id` argument is
truthy (matching the Python `if exclude_slot_id:` guard). -/
def check_slot_conflicts (slots : List TimeSlot) (tid cid st en : Nat)
    (exclude_slot_id : Option Nat) : List TimeSlot :=
  let base := slots.filter (fun s =>
    s.tournament_id == tid && s.court_id == cid &&
    decide (s.start_time < en) && decide (s.end_time > st))
  match exclude_slot_id with
  | some eid => if eid != 0 then base.filter (fun s => s.id != eid) else base
  | none => base

/-! ## Referee availability resolver (bracket/sql/referees.py) -/

/-- First stage of `get_available_referees_for_time_slot`: the SQL join
of `referees` with `referees_x_tournaments` keeping active referees
whose declared window contains the proposed window
(`available_from <= start_time` and `available_to >= end_time`). -/
def candidate_referees (refs : List Referee) (avails : List RefereeAvailabilityRow)
    (tid st en : Nat) : List Referee :=
  refs.flatMap (fun r =>
    if r.active then
      (avails.filter (fun a =>
        a.referee_id == r.id && a.tournament_id == tid &&
        decide (a.available_from ≤ st) && decide (en ≤ a.available_to))).map (fun _ => r)
    else [])

/-- The raw conflict-count query of `get_available_referees_for_time_slot`:
number of rows of `referees_x_matches` joined with `matches` for the
given referee whose margin-extended window
`[start_time, start_time + duration_minutes + margin_minutes)` strictly
overlaps the proposal. -/
def referee_conflict_count (assigns : List RefereeAssignment) (matchRows : List MatchRow)
    (rid st en : Nat) : Nat :=
  (assigns.flatMap (fun a =>
    if a.referee_id == rid then
      matchRows.filter (fun m =>
        m.id == a.match_id &&
        decide (m.start_time < en) &&
        decide (m.start_time + m.duration_minutes + m.margin_minutes > st))
    else [])).length

/-- `get_available_referees_for_time_slot`: candidates of the first
stage that have a zero conflict count. -/
def get_available_referees_for_time_slot (refs : List Referee)
    (avails : List RefereeAvailabilityRow) (assigns : List RefereeAssignment)
    (matchRows : List MatchRow) (tid st en : Nat) : List Referee :=
  (candidate_referees refs avails tid st en).filter
    (fun r => referee_conflict_count assigns matchRows r.id st en == 0)

/-! ## Slot grid generator (bracket/sql/time_slots.py, bulk_create_time_slots) -/

/-- Bulk-generation request (`TimeSlotBulkCreate`).  Calendar days are
numbered so that consecutive dates are consecutive numbers and day 0 is
a Monday, matching Python `date.weekday()` (Monday = 0); daily times are
minutes since midnight, as parsed from the `"HH:MM"` strings. -/
structure TimeSlotBulkCreate where
  tournament_id : Nat
  court_ids : List Nat
  start_day : Nat
  end_day : Nat
  slot_duration_minutes : Nat
  break_duration_minutes : Nat
  daily_start_minutes : Nat
  daily_end_minutes : Nat
  exclude_days : List Nat
deriving DecidableEq, Repr

/-- Slot draft produced by the generator before the database assigns an
id (`TimeSlotInsertable`). -/
structure TimeSlotInsertable where
  tournament_id : Nat
  court_id : Nat
  start_time : Nat
  end_time : Nat
  is_available : Bool
  match_id : Option Nat
deriving DecidableEq, Repr

/-- Inner cursor walk of `bulk_create_time_slots` for one day and one
court: while `current_time < end_time_for_day`, compute
`slot_end = current_time + duration`; stop without emitting if
`slot_end > end_time_for_day`; otherwise emit `[cursor, slot_end)` and
advance the cursor to `slot_end + break`.  The fuel argument only bounds
the recursion; `daySlots` below supplies enough fuel for every
terminating run of the Python loop. -/
def daySlotsAux (dur brk dclose : Nat) : Nat → Nat → List (Nat × Nat)
  | 0, _ => []
  | fuel + 1, cur =>
    if cur < dclose then
      if cur + dur ≤ dclose then
        (cur, cur + dur) :: daySlotsAux dur brk dclose fuel (cur + dur + brk)
      else []
    else []

/-- Slots generated for a single day and court, walking the cursor from
`dopen` against closing time `dclose`. -/
def daySlots (dur brk dopen dclose : Nat) : List (Nat × Nat) :=
  daySlotsAux dur brk dclose (dclose + 1) dopen

/-- Calendar days of the inclusive range `[start_day, end_day]`. -/
def bulkDays (req : TimeSlotBulkCreate) : List Nat :=
  (List.range (req.end_day + 1 - req.start_day)).map (fun i => req.start_day + i)

/-- Drafts produced by `bulk_create_time_slots`, in generation order:
days outermost (skipping excluded weekdays), then courts, then the
per-day cursor walk.  Absolute instants place each day at
`day * 1440` minutes. -/
def bulk_create_time_slots (req : TimeSlotBulkCreate) : List TimeSlotInsertable :=
  (bulkDays req).flatMap (fun d =>
    if req.exclude_days.contains (d % 7) then []
    else req.court_ids.flatMap (fun c =>
      (daySlots req.slot_duration_minutes req.break_duration_minutes
          req.daily_start_minutes req.daily_end_minutes).map (fun p =>
        { tournament_id := req.tournament_id
          court_id := c
          start_time := d * 1440 + p.1
          end_time := d * 1440 + p.2
          is_available := true
          match_id := none })))

/-! ## Store state and route handlers (bracket/routes/time_slots.py) -/

/-- Error taxonomy of the route layer: 404 `NotFound`, 409 or
duplicate-key `Conflict`, 400 for a bad role (`InvalidArgument`) or a
wrong-state operation (`InvalidState`). -/
inductive ApiError where
  | NotFound
  | Conflict
  | InvalidArgument
  | InvalidState
deriving DecidableEq, Repr

/-- Persistent state of the `time_slots` table together with the next
database-generated primary key (sequences start at 1). -/
structure DbState where
  slots : List TimeSlot
  nextSlotId : Nat
deriving DecidableEq, Repr

/-- The empty store. -/
def initState : DbState := { slots := [], nextSlotId := 1 }

/-- The partial-update dictionary accepted by the slot update route,
restricted to the mutable columns the scheduling logic touches.  A
field set to `none` is absent from the dictionary. -/
structure SlotUpdates where
  start_time : Option Nat := none
  end_time : Option Nat := none
  court_id : Option Nat := none
  is_available : Option Bool := none
deriving DecidableEq, Repr

/-- The `unique_court_time_slot` constraint on
`(court_id, start_time, end_time)`: true when an insert with these
values would collide with a persisted row. -/
def uniqueViolation (slots : List TimeSlot) (cid st en : Nat) : Bool :=
  slots.any (fun s => s.court_id == cid && s.start_time == st && s.end_time == en)

/-- The SQL-level `create_time_slot` insert: the persisted row takes
`court_id`, `start_time`, `end_time` and `is_available` from the body
and always sets `match_id` to `None`. -/
def create_time_slot (db : DbState) (tid : Nat) (body : TimeSlotBody) :
    TimeSlot × DbState :=
  let slot : TimeSlot :=
    { id := db.nextSlotId
      tournament_id := tid
      court_id := body.court_id
      start_time := body.start_time
      end_time := body.end_time
      is_available := body.is_available
      match_id := none }
  (slot, { slots := db.slots ++ [slot], nextSlotId := db.nextSlotId + 1 })

/-- Route `POST /tournaments/{tid}/time-slots`: run the conflict check
with no exclusion and reject with 409 on a non-empty result, otherwise
insert (a duplicate-key violation of the unique constraint aborts the
insert). -/
def create_new_time_slot (db : DbState) (tid : Nat) (body : TimeSlotBody) :
    Except ApiError TimeSlot × DbState :=
  if (check_slot_conflicts db.slots tid body.court_id body.start_time body.end_time none).isEmpty
  then
    if uniqueViolation db.slots body.court_id body.start_time body.end_time
    then (.error .Conflict, db)
    else
      let r := create_time_slot db tid body
      (.ok r.1, r.2)
  else (.error .Conflict, db)

/-- Application of the update dictionary to a row, as the SQL `UPDATE`
statement does. -/
def apply_updates (s : TimeSlot) (u : SlotUpdates) : TimeSlot :=
  { s with
    start_time := u.start_time.getD s.start_time
    end_time := u.end_time.getD s.end_time
    court_id := u.court_id.getD s.court_id
    is_available := u.is_available.getD s.is_available }

/-- Route `PUT /time-slots/{id}`: 404 when the slot is missing; when the
dictionary touches `start_time` or `end_time`, re-run the conflict check
on the would-be bounds against the slot's current
`(tournament_id, court_id)`, excluding the slot itself, and reject with
409 on a hit; otherwise apply the update (a duplicate-key violation of
the unique constraint aborts it). -/
def update_time_slot_info (db : DbState) (sid : Nat) (u : SlotUpdates) :
    Except ApiError TimeSlot × DbState :=
  match db.slots.find? (fun s => s.id == sid) with
  | none => (.error .NotFound, db)
  | some existing =>
    let ns := u.start_time.getD existing.start_time
    let ne := u.end_time.getD existing.end_time
    if (u.start_time.isSome || u.end_time.isSome) &&
       !(check_slot_conflicts db.slots existing.tournament_id existing.court_id
           ns ne (some sid)).isEmpty
    then (.error .Conflict, db)
    else
      let updated := apply_updates existing u
      if db.slots.any (fun s => s.id != sid && s.court_id == updated.court_id &&
          s.start_time == updated.start_time && s.end_time == updated.end_time)
      then (.error .Conflict, db)
      else (.ok updated,
        { db with slots := db.slots.map (fun s => if s.id == sid then apply_updates s u else s) })

/-- Route `POST /time-slots/{id}/assign-match`: 404 when missing, 400
when the slot is unavailable, 400 when `slot.match_id` is truthy;
otherwise set `match_id` and clear `is_available` in one write. -/
def assign_match_to_time_slot (db : DbState) (sid mid : Nat) :
    Except ApiError TimeSlot × DbState :=
  match db.slots.find? (fun s => s.id == sid) with
  | none => (.error .NotFound, db)
  | some slot =>
    if slot.is_available = false then (.error .InvalidState, db)
    else if truthyId slot.match_id then (.error .InvalidState, db)
    else
      (.ok { slot with match_id := some mid, is_available := false },
       { db with slots := db.slots.map (fun s =>
          if s.id == sid then { s with match_id := some mid, is_available := false } else s) })

/-- Route `POST /time-slots/{id}/release`: 404 when missing, 400 when
`slot.match_id` is falsy; otherwise clear `match_id` and set
`is_available` in one write. -/
def release_time_slot (db : DbState) (sid : Nat) :
    Except ApiError TimeSlot × DbState :=
  match db.slots.find? (fun s => s.id == sid) with
  | none => (.error .NotFound, db)
  | some slot =>
    if !truthyId slot.match_id then (.error .InvalidState, db)
    else
      (.ok { slot with match_id := none, is_available := true },
       { db with slots := db.slots.map (fun s =>
          if s.id == sid then { s with match_id := none, is_available := true } else s) })

/-- Route `DELETE /time-slots/{id}`: 404 when missing, 400 when a match
is assigned, otherwise remove the row. -/
def delete_time_slot_by_id (db : DbState) (sid : Nat) :
    Except ApiError Unit × DbState :=
  match db.slots.find? (fun s => s.id == sid) with
  | none => (.error .NotFound, db)
  | some slot =>
    if truthyId slot.match_id then (.error .InvalidState, db)
    else (.ok (), { db with slots := db.slots.filter (fun s => s.id != sid) })

/-- Sequential insertion of generated drafts, as the per-slot inserts of
`bulk_create_time_slots` execute: a duplicate-key violation of the
unique constraint raises and aborts the remaining inserts, keeping the
rows already written. -/
def insertDrafts : DbState → List TimeSlotInsertable → DbState
  | db, [] => db
  | db, d :: ds =>
    if uniqueViolation db.slots d.court_id d.start_time d.end_time then db
    else insertDrafts
      { slots := db.slots ++ [{ id := db.nextSlotId
                                tournament_id := d.tournament_id
                                court_id := d.court_id
                                start_time := d.start_time
                                end_time := d.end_time
                                is_available := d.is_available
                                match_id := d.match_id }]
        nextSlotId := db.nextSlotId + 1 } ds

/-- Route `POST /tournaments/{tid}/time-slots/bulk`: generate the grid
and insert it; no conflict check is performed anywhere on this path. -/
def create_time_slots_bulk (db : DbState) (req : TimeSlotBulkCreate) : DbState :=
  insertDrafts db (bulk_create_time_slots req)

/-- One API request against the slot store. -/
inductive SlotOp where
  | create (tid : Nat) (body : TimeSlotBody)
  | updateSlot (sid : Nat) (u : SlotUpdates)
  | bulk (req : TimeSlotBulkCreate)
  | assignMatch (sid mid : Nat)
  | release (sid : Nat)
  | deleteSlot (sid : Nat)
deriving DecidableEq, Repr

/-- State transition of a single request (errors leave the store
unchanged, as each handler returns before writing). -/
def execOp (db : DbState) : SlotOp → DbState
  | .create tid body => (create_new_time_slot db tid body).2
  | .updateSlot sid u => (update_time_slot_info db sid u).2
  | .bulk req => create_time_slots_bulk db req
  | .assignMatch sid mid => (assign_match_to_time_slot db sid mid).2
  | .release sid => (release_time_slot db sid).2
  | .deleteSlot sid => (delete_time_slot_by_id db sid).2

/-- Execution of a request sequence; every state of the form
`execOps initState ops` is reachable. -/
def execOps (db : DbState) : List SlotOp → DbState
  | [] => db
  | op :: ops => execOps (execOp db op) ops

/-! ## Referee routes (bracket/routes/referees.py) -/

/-- State of the referee tables needed by the assignment endpoints. -/
structure RefState where
  referees : List Referee
  assignments : List RefereeAssignment
deriving DecidableEq, Repr

/-- The fixed role enumeration validated by the assign route. -/
def valid_roles : List String := ["main", "assistant", "line_judge", "video_referee"]

/-- Route `POST /matches/{mid}/referees/{rid}`: 404 when the referee
does not exist, 400 when the role is outside `valid_roles`, duplicate
key (`unique_referee_match_role`) when the (referee, match, role) triple
is already present, otherwise insert the assignment row. -/
def assign_referee (st : RefState) (mid rid : Nat) (role : String)
    (confirmed : Bool) (notes : Option String) :
    Except ApiError RefereeAssignment × RefState :=
  match st.referees.find? (fun r => r.id == rid) with
  | none => (.error .NotFound, st)
  | some _ =>
    if !(valid_roles.contains role) then (.error .InvalidArgument, st)
    else if st.assignments.any (fun a =>
        a.referee_id == rid && a.match_id == mid && a.role == role)
    then (.error .Conflict, st)
    else
      let a : RefereeAssignment :=
        { referee_id := rid, match_id := mid, role := role,
          confirmed := confirmed, notes := notes }
      (.ok a, { st with assignments := st.assignments ++ [a] })

/-- Field application of `update_referee_assignment`: only the supplied
fields are written. -/
def apply_assignment_update (a : RefereeAssignment) (confirmed : Option Bool)
    (notes : Option String) : RefereeAssignment :=
  { a with
    confirmed := confirmed.getD a.confirmed
    notes := match notes with | some v => some v | none => a.notes }

/-- SQL-level `update_referee_assignment`: when neither field is
supplied it returns `None` without touching the table; otherwise it
updates every row matching the (referee, match) pair and returns one
updated row, or `None` when no row matched. -/
def update_referee_assignment (assigns : List RefereeAssignment) (rid mid : Nat)
    (confirmed : Option Bool) (notes : Option String) :
    Option RefereeAssignment × List RefereeAssignment :=
  if confirmed.isNone && notes.isNone then (none, assigns)
  else
    match assigns.filter (fun a => a.referee_id == rid && a.match_id == mid) with
    | [] => (none, assigns)
    | a0 :: _ =>
      (some (apply_assignment_update a0 confirmed notes),
       assigns.map (fun a =>
        if a.referee_id == rid && a.match_id == mid
        then apply_assignment_update a confirmed notes else a))

/-- Route `PUT /matches/{mid}/referees/{rid}`: 404 exactly when the
SQL-level update returns `None`. -/
def update_referee_match_assignment (st : RefState) (mid rid : Nat)
    (confirmed : Option Bool) (notes : Option String) :
    Except ApiError RefereeAssignment × RefState :=
  match update_referee_assignment st.assignments rid mid confirmed notes with
  | (none, _) => (.error .NotFound, st)
  | (some a, newAssigns) => (.ok a, { st with assignments := newAssigns })

/-! ## Claim C1: the conflict checker -/

/-- Membership in the base overlap filter of `check_slot_conflicts`. -/
lemma mem_conflict_base (slots : List TimeSlot) (tid cid st en : Nat) (s : TimeSlot) :
    s ∈ slots.filter (fun s =>
        s.tournament_id == tid && s.court_id == cid &&
        decide (s.start_time < en) && decide (s.end_time > st)) ↔
      s ∈ slots ∧ s.tournament_id = tid ∧ s.court_id = cid ∧
        s.start_time < en ∧ st < s.end_time := by
  simp [List.mem_filter, and_assoc]

/-- C1. For every tournament, court, proposed half-open interval and
optional excluded slot id, `check_slot_conflicts` returns exactly the
persisted slots with the same `(tournament_id, court_id)`, other than
the excluded one, whose interval strictly overlaps the proposal
(`slot.start < end` and `slot.end > start`); touching endpoints are
never conflicts.  The hypothesis that persisted ids are positive
reflects database-generated primary keys; it covers the Python
truthiness guard `if exclude_slot_id:`. -/
theorem C1_conflict_checker_exact (slots : List TimeSlot) (tid cid st en : Nat)
    (ex : Option Nat) (hpos : ∀ s ∈ slots, 0 < s.id) (s : TimeSlot) :
    s ∈ check_slot_conflicts slots tid cid st en ex ↔
      s ∈ slots ∧ s.tournament_id = tid ∧ s.court_id = cid ∧
        (∀ i, ex = some i → s.id ≠ i) ∧ s.start_time < en ∧ st < s.end_time := by
  cases ex with
  | none =>
    simp only [check_slot_conflicts]
    rw [mem_conflict_base]
    constructor
    · rintro ⟨hs, h1, h2, h3, h4⟩
      refine ⟨hs, h1, h2, ?_, h3, h4⟩
      intro i hi
      cases hi
    · rintro ⟨hs, h1, h2, _, h3, h4⟩
      exact ⟨hs, h1, h2, h3, h4⟩
  | some eid =>
    simp only [check_slot_conflicts]
    by_cases h0 : eid = 0
    · subst h0
      simp only [bne_self_eq_false, Bool.false_eq_true, if_false]
      rw [mem_conflict_base]
      constructor
      · rintro ⟨hs, h1, h2, h3, h4⟩
        refine ⟨hs, h1, h2, ?_, h3, h4⟩
        intro i hi
        cases hi
        have := hpos s hs
        omega
      · rintro ⟨hs, h1, h2, _, h3, h4⟩
        exact ⟨hs, h1, h2, h3, h4⟩
    · have hb : (eid != 0) = true := by simpa using h0
      rw [if_pos hb, List.mem_filter, mem_conflict_base]
      constructor
      · rintro ⟨⟨hs, h1, h2, h3, h4⟩, hne⟩
        refine ⟨hs, h1, h2, ?_, h3, h4⟩
        intro i hi
        cases hi
        simpa using hne
      · rintro ⟨hs, h1, h2, hne, h3, h4⟩
        exact ⟨⟨hs, h1, h2, h3, h4⟩, by simpa using hne eid rfl⟩

/-- Concrete slot used by the C1 witness. -/
def c1Slot : TimeSlot :=
  { id := 1, tournament_id := 1, court_id := 1, start_time := 600,
    end_time := 660, is_available := true, match_id := none }

/-- Witness for C1: a persisted slot [10:00, 11:00) is reported as a
conflict for the proposal [10:30, 11:30) on the same court. -/
theorem C1_conflict_checker_exact_witness :
    c1Slot ∈ check_slot_conflicts [c1Slot] 1 1 630 690 none := by
  refine (C1_conflict_checker_exact [c1Slot] 1 1 630 690 none (by decide) c1Slot).mpr
    ⟨by simp, rfl, rfl, ?_, by decide, by decide⟩
  intro i hi
  cases hi

/-! ## Claims C3 and C2: the availability resolver -/

/-- C3. The candidate set of the availability resolver is exactly the
active referees having an availability row for the tournament whose
declared window fully contains the proposal
(`available_from ≤ start` and `available_to ≥ end`); in particular
every referee the resolver returns comes from this candidate set, so a
referee whose window merely overlaps the proposal is excluded. -/
theorem C3_candidate_set_exact (refs : List Referee)
    (avails : List RefereeAvailabilityRow) (assigns : List RefereeAssignment)
    (matchRows : List MatchRow) (tid st en : Nat) (r : Referee) :
    (r ∈ candidate_referees refs avails tid st en ↔
      r ∈ refs ∧ r.active = true ∧
        ∃ a ∈ avails, a.referee_id = r.id ∧ a.tournament_id = tid ∧
          a.available_from ≤ st ∧ en ≤ a.available_to) ∧
    (r ∈ get_available_referees_for_time_slot refs avails assigns matchRows tid st en →
      r ∈ candidate_referees refs avails tid st en) := by
  constructor
  · constructor
    · intro h
      obtain ⟨r0, hr0, hmem⟩ := List.mem_flatMap.mp h
      by_cases hact : r0.active
      · rw [if_pos hact] at hmem
        obtain ⟨a, ha, rfl⟩ := List.mem_map.mp hmem
        have := List.mem_filter.mp ha
        refine ⟨hr0, hact, a, this.1, ?_⟩
        have hc := this.2
        simp only [Bool.and_eq_true, beq_iff_eq, decide_eq_true_eq] at hc
        exact ⟨hc.1.1.1.symm ▸ rfl, hc.1.1.2, hc.1.2, hc.2⟩
      · rw [if_neg hact] at hmem
        cases hmem
    · rintro ⟨hr, hact, a, ha, h1, h2, h3, h4⟩
      refine List.mem_flatMap.mpr ⟨r, hr, ?_⟩
      rw [if_pos hact]
      refine List.mem_map.mpr ⟨a, List.mem_filter.mpr ⟨ha, ?_⟩, rfl⟩
      simp only [Bool.and_eq_true, beq_iff_eq, decide_eq_true_eq]
      exact ⟨⟨⟨h1, h2⟩, h3⟩, h4⟩
  · intro h
    exact (List.mem_filter.mp h).1

/-- The conflict count of the resolver is zero exactly when no
assignment of the referee joins to a match whose margin-extended window
strictly overlaps the proposal. -/
lemma referee_conflict_count_eq_zero (assigns : List RefereeAssignment)
    (matchRows : List MatchRow) (rid st en : Nat) :
    referee_conflict_count assigns matchRows rid st en = 0 ↔
      ¬ ∃ a ∈ assigns, a.referee_id = rid ∧
          ∃ m ∈ matchRows, m.id = a.match_id ∧
            m.start_time < en ∧ st < m.start_time + m.duration_minutes + m.margin_minutes := by
  unfold referee_conflict_count
  rw [List.length_eq_zero, List.eq_nil_iff_forall_not_mem]
  constructor
  · rintro h ⟨a, ha, hrid, m, hm, hmid, h1, h2⟩
    refine h m (List.mem_flatMap.mpr ⟨a, ha, ?_⟩)
    rw [if_pos (by simpa using hrid)]
    refine List.mem_filter.mpr ⟨hm, ?_⟩
    simp only [Bool.and_eq_true, beq_iff_eq, decide_eq_true_eq]
    exact ⟨⟨hmid, h1⟩, h2⟩
  · intro h m hmem
    obtain ⟨a, ha, hin⟩ := List.mem_flatMap.mp hmem
    by_cases hrid : a.referee_id = rid
    · rw [if_pos (by simpa using hrid)] at hin
      have := List.mem_filter.mp hin
      have hc := this.2
      simp only [Bool.and_eq_true, beq_iff_eq, decide_eq_true_eq] at hc
      exact h ⟨a, ha, hrid, m, this.1, hc.1.1, hc.1.2, hc.2⟩
    · rw [if_neg (by simpa using hrid)] at hin
      cases hin

/-- C2. A candidate that passed the availability filter is accepted by
the resolver exactly when none of their existing assignments joins to a
match whose margin-extended window
`[start, start + duration + margin)` strictly overlaps the proposal;
the margin extends the window only after the duration, never before the
start. -/
theorem C2_referee_margin_conflict (refs : List Referee)
    (avails : List RefereeAvailabilityRow) (assigns : List RefereeAssignment)
    (matchRows : List MatchRow) (tid st en : Nat) (r : Referee)
    (hr : r ∈ candidate_referees refs avails tid st en) :
    r ∈ get_available_referees_for_time_slot refs avails assigns matchRows tid st en ↔
      ¬ ∃ a ∈ assigns, a.referee_id = r.id ∧
          ∃ m ∈ matchRows, m.id = a.match_id ∧
            m.start_time < en ∧ st < m.start_time + m.duration_minutes + m.margin_minutes := by
  unfold get_available_referees_for_time_slot
  rw [List.mem_filter]
  rw [← referee_conflict_count_eq_zero assigns matchRows r.id st en]
  simp [hr]

/-- Referee used by the C2 witness. -/
def c2Referee : Referee := { id := 1, name := "A", active := true }

/-- Witness for C2, the margin example of the specification: a referee
assigned to a match running [09:00, 10:00) with a 5-minute margin is
rejected for the proposal [10:00, 11:00). -/
theorem C2_referee_margin_conflict_witness :
    c2Referee ∉ get_available_referees_for_time_slot [c2Referee]
      [{ referee_id := 1, tournament_id := 1, available_from := 0, available_to := 2000 }]
      [{ referee_id := 1, match_id := 7, role := "main", confirmed := false, notes := none }]
      [{ id := 7, start_time := 540, duration_minutes := 60, margin_minutes := 5 }]
      1 600 660 := by
  intro hmem
  have h := (C2_referee_margin_conflict [c2Referee]
      [{ referee_id := 1, tournament_id := 1, available_from := 0, available_to := 2000 }]
      [{ referee_id := 1, match_id := 7, role := "main", confirmed := false, notes := none }]
      [{ id := 7, start_time := 540, duration_minutes := 60, margin_minutes := 5 }]
      1 600 660 c2Referee (by decide)).mp hmem
  exact h ⟨{ referee_id := 1, match_id := 7, role := "main", confirmed := false, notes := none },
    by simp, rfl,
    { id := 7, start_time := 540, duration_minutes := 60, margin_minutes := 5 },
    by simp, rfl, by decide, by decide⟩

/-! ## Claim C4: the per-day cursor walk -/

/-- Closed form of the cursor walk: the `n` slots starting at
`cur + k * (dur + brk)` for `k < n`. -/
def gridFrom (dur brk cur n : Nat) : List (Nat × Nat) :=
  (List.range n).map (fun k => (cur + k * (dur + brk), cur + k * (dur + brk) + dur))

/-- Number of slots the walk emits from cursor position `cur` before
closing time `dclose`. -/
def slotsPerDayFrom (dur brk dclose cur : Nat) : Nat :=
  if cur + dur ≤ dclose then (dclose - dur - cur) / (dur + brk) + 1 else 0

/-- Peeling one slot off the closed form advances the cursor by
`dur + brk`. -/
lemma gridFrom_succ (dur brk cur n : Nat) :
    gridFrom dur brk cur (n + 1) =
      (cur, cur + dur) :: gridFrom dur brk (cur + dur + brk) n := by
  unfold gridFrom
  rw [List.range_succ_eq_map, List.map_cons, List.map_map]
  refine congrArg₂ _ (by simp) ?_
  apply List.map_congr_left
  intro k hk
  have h1 : cur + (k + 1) * (dur + brk) = cur + dur + brk + k * (dur + brk) := by ring
  simp [Function.comp, Nat.succ_eq_add_one, h1]

/-- Advancing the cursor by one step decrements the remaining slot
count. -/
lemma slotsPerDayFrom_shift (dur brk dclose cur : Nat) (hdur : 1 ≤ dur)
    (h2 : cur + dur ≤ dclose) :
    slotsPerDayFrom dur brk dclose cur =
      slotsPerDayFrom dur brk dclose (cur + dur + brk) + 1 := by
  unfold slotsPerDayFrom
  rw [if_pos h2]
  by_cases h3 : cur + dur + brk + dur ≤ dclose
  · rw [if_pos h3]
    have hstep : 0 < dur + brk := by omega
    have he : dclose - dur - cur = (dclose - dur - (cur + dur + brk)) + (dur + brk) := by
      omega
    rw [he, Nat.add_div_right _ hstep]
  · rw [if_neg h3]
    have hlt : dclose - dur - cur < dur + brk := by omega
    rw [Nat.div_eq_of_lt hlt]

/-- With enough fuel the cursor walk equals its closed form. -/
lemma daySlotsAux_eq_gridFrom (dur brk dclose : Nat) (hdur : 1 ≤ dur) :
    ∀ fuel cur, dclose + 1 ≤ fuel + cur →
      daySlotsAux dur brk dclose fuel cur =
        gridFrom dur brk cur (slotsPerDayFrom dur brk dclose cur)
  | 0, cur, hfuel => by
    have h1 : ¬ cur + dur ≤ dclose := by omega
    simp [daySlotsAux, gridFrom, slotsPerDayFrom, h1]
  | fuel + 1, cur, hfuel => by
    by_cases h1 : cur < dclose
    · by_cases h2 : cur + dur ≤ dclose
      · rw [daySlotsAux, if_pos h1, if_pos h2,
          daySlotsAux_eq_gridFrom dur brk dclose hdur fuel (cur + dur + brk) (by omega),
          slotsPerDayFrom_shift dur brk dclose cur hdur h2, gridFrom_succ]
      · rw [daySlotsAux, if_pos h1, if_neg h2]
        simp [gridFrom, slotsPerDayFrom, h2]
    · rw [daySlotsAux, if_neg h1]
      have h2 : ¬ cur + dur ≤ dclose := by omega
      simp [gridFrom, slotsPerDayFrom, h2]

/-- The walk from `dopen` equals its closed form. -/
lemma daySlots_eq_gridFrom (dur brk dopen dclose : Nat) (hdur : 1 ≤ dur) :
    daySlots dur brk dopen dclose =
      gridFrom dur brk dopen (slotsPerDayFrom dur brk dclose dopen) :=
  daySlotsAux_eq_gridFrom dur brk dclose hdur (dclose + 1) dopen (by omega)

/-- Every emitted slot has exact length `dur`, ends no later than the
close, and starts no earlier than the cursor. -/
lemma daySlotsAux_bounds (dur brk dclose : Nat) :
    ∀ fuel cur, ∀ p ∈ daySlotsAux dur brk dclose fuel cur,
      p.2 = p.1 + dur ∧ p.2 ≤ dclose ∧ cur ≤ p.1
  | 0, cur => by simp [daySlotsAux]
  | fuel + 1, cur => by
    intro p hp
    rw [daySlotsAux] at hp
    split_ifs at hp with h1 h2
    · rcases List.mem_cons.mp hp with h | h
      · subst h
        exact ⟨rfl, h2, le_refl _⟩
      · have ih := daySlotsAux_bounds dur brk dclose fuel (cur + dur + brk) p h
        exact ⟨ih.1, ih.2.1, by omega⟩
    · cases hp
    · cases hp

/-- C4. On each day and court the generator walks a cursor from the
daily open, emitting `[cursor, cursor + dur)` only while
`cursor + dur ≤ close` and advancing by `dur + brk`: the walk equals
the closed-form arithmetic grid, every emitted slot has full duration
(never truncated) and ends by the close, and when the duration alone
exceeds the daily window zero slots are produced. -/
theorem C4_day_walk (dur brk dopen dclose : Nat) (hdur : 1 ≤ dur) :
    daySlots dur brk dopen dclose =
      gridFrom dur brk dopen (slotsPerDayFrom dur brk dclose dopen) ∧
    (∀ p ∈ daySlots dur brk dopen dclose,
        p.2 = p.1 + dur ∧ p.2 ≤ dclose ∧ dopen ≤ p.1) ∧
    (dclose < dopen + dur → daySlots dur brk dopen dclose = []) := by
  refine ⟨daySlots_eq_gridFrom dur brk dopen dclose hdur, ?_, ?_⟩
  · intro p hp
    exact daySlotsAux_bounds dur brk dclose (dclose + 1) dopen p hp
  · intro h
    rw [daySlots_eq_gridFrom dur brk dopen dclose hdur]
    have h2 : ¬ dopen + dur ≤ dclose := by omega
    simp [slotsPerDayFrom, gridFrom, h2]

/-- Witness for C4, the worked example of the specification: window
[09:00, 12:00), 90-minute slots, 15-minute breaks produce exactly the
single slot [09:00, 10:30) — the trailing partial slot is dropped. -/
theorem C4_day_walk_witness :
    1 ≤ 90 ∧
      daySlots 90 15 540 720 = gridFrom 90 15 540 (slotsPerDayFrom 90 15 720 540) ∧
      daySlots 90 15 540 720 = [(540, 630)] :=
  ⟨by decide, (C4_day_walk 90 15 540 720 (by decide)).1, by decide⟩

/-! ## Claim C5: the bulk generation count -/

/-- Days of the requested range whose weekday is not excluded. -/
def activeDays (req : TimeSlotBulkCreate) : List Nat :=
  (bulkDays req).filter (fun d => !(req.exclude_days.contains (d % 7)))

/-- The per-day cursor walk of a bulk request. -/
def reqDaySlots (req : TimeSlotBulkCreate) : List (Nat × Nat) :=
  daySlots req.slot_duration_minutes req.break_duration_minutes
    req.daily_start_minutes req.daily_end_minutes

/-- The day/time ranges a single court receives: the per-day walk
replicated over every non-excluded day. -/
def dayTimes (req : TimeSlotBulkCreate) : List (Nat × Nat) :=
  (activeDays req).flatMap (fun d =>
    (reqDaySlots req).map (fun p => (d * 1440 + p.1, d * 1440 + p.2)))

/-- Length of a flatMap whose inner lists all have length `k`. -/
lemma length_flatMap_const {α β : Type} (l : List α) (f : α → List β) (k : Nat)
    (hk : ∀ a ∈ l, (f a).length = k) : (l.flatMap f).length = l.length * k := by
  induction l with
  | nil => simp
  | cons a l ih =>
    have hk' : ∀ b ∈ l, (f b).length = k := fun b hb => hk b (List.mem_cons_of_mem a hb)
    have h2 : ((a :: l).flatMap f).length = (f a).length + (l.flatMap f).length := by
      simp
    rw [h2, ih hk', hk a (List.mem_cons_self a l), List.length_cons, Nat.add_mul,
      Nat.one_mul]
    omega

/-- Length of a flatMap that skips elements satisfying `p` and produces
`k` elements otherwise. -/
lemma length_flatMap_ite {α β : Type} (l : List α) (p : α → Bool) (f : α → List β)
    (k : Nat) (hk : ∀ a ∈ l, (f a).length = k) :
    (l.flatMap (fun a => if p a then [] else f a)).length =
      (l.filter (fun a => !(p a))).length * k := by
  induction l with
  | nil => simp
  | cons a l ih =>
    have hk' : ∀ b ∈ l, (f b).length = k := fun b hb => hk b (List.mem_cons_of_mem a hb)
    by_cases hp : p a
    · simp only [List.flatMap_cons, if_pos hp, List.nil_append]
      rw [ih hk']
      simp [hp]
    · simp only [List.flatMap_cons, if_neg hp, List.length_append]
      rw [ih hk', hk a (List.mem_cons_self a l)]
      have h1 : (List.filter (fun a => !(p a)) (a :: l)).length
          = (List.filter (fun a => !(p a)) l).length + 1 := by
        simp [hp]
      rw [h1, Nat.add_mul, Nat.one_mul]
      omega

/-- Skipping excluded elements of a flatMap is flatMapping over the
filtered list. -/
lemma flatMap_ite_eq_filter_flatMap {α β : Type} (l : List α) (p : α → Bool)
    (h : α → List β) :
    l.flatMap (fun a => if p a then [] else h a) =
      (l.filter (fun a => !(p a))).flatMap h := by
  induction l with
  | nil => rfl
  | cons a l ih => by_cases hp : p a <;> simp [hp, ih]

/-- A flatMap that keeps exactly one element of a duplicate-free list. -/
lemma flatMap_single_of_nodup {α β : Type} [DecidableEq α] (l : List α) (c : α)
    (X : List β) (hnd : l.Nodup) (hc : c ∈ l) :
    l.flatMap (fun a => if a = c then X else []) = X := by
  induction l with
  | nil => cases hc
  | cons a l ih =>
    by_cases hac : a = c
    · subst hac
      have hnotmem : a ∉ l := (List.nodup_cons.mp hnd).1
      have hl : l.flatMap (fun b => if b = a then X else []) = [] := by
        rw [List.flatMap_eq_nil_iff]
        intro b hb
        rw [if_neg]
        rintro rfl
        exact hnotmem hb
      simp [hl]
    · have hcl : c ∈ l := by
        rcases List.mem_cons.mp hc with h | h
        · exact absurd h.symm hac
        · exact h
      simp [hac, ih (List.nodup_cons.mp hnd).2 hcl]

/-- Length of the per-day walk, from the closed form. -/
lemma daySlots_length (dur brk dopen dclose : Nat) (hdur : 1 ≤ dur) :
    (daySlots dur brk dopen dclose).length = slotsPerDayFrom dur brk dclose dopen := by
  rw [daySlots_eq_gridFrom dur brk dopen dclose hdur]
  simp [gridFrom]

/-- C5. A bulk request over N courts and D non-excluded days with S
slots fitting per day creates exactly N * D * S records; every record is
created available with no assigned match, and each court receives
exactly the same day/time ranges as every other court. -/
theorem C5_bulk_count (req : TimeSlotBulkCreate)
    (hdur : 1 ≤ req.slot_duration_minutes) (hnd : req.court_ids.Nodup) :
    (bulk_create_time_slots req).length =
      req.court_ids.length * ((activeDays req).length *
        slotsPerDayFrom req.slot_duration_minutes req.break_duration_minutes
          req.daily_end_minutes req.daily_start_minutes) ∧
    (∀ s ∈ bulk_create_time_slots req, s.is_available = true ∧ s.match_id = none) ∧
    (∀ c ∈ req.court_ids,
      ((bulk_create_time_slots req).filter (fun s => s.court_id == c)).map
          (fun s => (s.start_time, s.end_time)) = dayTimes req) := by
  have hS : (reqDaySlots req).length =
      slotsPerDayFrom req.slot_duration_minutes req.break_duration_minutes
        req.daily_end_minutes req.daily_start_minutes :=
    daySlots_length _ _ _ _ hdur
  refine ⟨?_, ?_, ?_⟩
  · unfold bulk_create_time_slots
    rw [length_flatMap_ite (bulkDays req) (fun d => req.exclude_days.contains (d % 7))
      _ (req.court_ids.length *
          slotsPerDayFrom req.slot_duration_minutes req.break_duration_minutes
            req.daily_end_minutes req.daily_start_minutes) ?_]
    · unfold activeDays
      ring
    · intro d hd
      rw [length_flatMap_const req.court_ids _
        (slotsPerDayFrom req.slot_duration_minutes req.break_duration_minutes
          req.daily_end_minutes req.daily_start_minutes) ?_]
      intro c hc
      rw [List.length_map]
      exact hS
  · intro s hs
    unfold bulk_create_time_slots at hs
    obtain ⟨d, hd, hs⟩ := List.mem_flatMap.mp hs
    split_ifs at hs with hx
    · cases hs
    · obtain ⟨c, hc, hs⟩ := List.mem_flatMap.mp hs
      obtain ⟨p, hp, rfl⟩ := List.mem_map.mp hs
      exact ⟨rfl, rfl⟩
  · intro c hc
    unfold bulk_create_time_slots
    rw [List.filter_flatMap]
    have hcourt : ∀ d c' : Nat,
        (List.filter (fun s => s.court_id == c)
          (List.map (fun p =>
            ({ tournament_id := req.tournament_id, court_id := c',
               start_time := d * 1440 + p.1, end_time := d * 1440 + p.2,
               is_available := true, match_id := none } : TimeSlotInsertable))
            (daySlots req.slot_duration_minutes req.break_duration_minutes
              req.daily_start_minutes req.daily_end_minutes))) =
        (if c' = c then List.map (fun p =>
            ({ tournament_id := req.tournament_id, court_id := c,
               start_time := d * 1440 + p.1, end_time := d * 1440 + p.2,
               is_available := true, match_id := none } : TimeSlotInsertable))
            (daySlots req.slot_duration_minutes req.break_duration_minutes
              req.daily_start_minutes req.daily_end_minutes) else []) := by
      intro d c'
      by_cases hcc : c' = c
      · subst hcc
        rw [if_pos rfl]
        apply List.filter_eq_self.mpr
        intro s hs
        obtain ⟨p, hp, rfl⟩ := List.mem_map.mp hs
        simp
      · rw [if_neg hcc]
        apply List.filter_eq_nil_iff.mpr
        intro s hs
        obtain ⟨p, hp, rfl⟩ := List.mem_map.mp hs
        simp [hcc]
    have hinner : ∀ d : Nat,
        (List.filter (fun s => s.court_id == c)
          (if req.exclude_days.contains (d % 7) then []
           else req.court_ids.flatMap (fun c' =>
            List.map (fun p =>
              ({ tournament_id := req.tournament_id, court_id := c',
                 start_time := d * 1440 + p.1, end_time := d * 1440 + p.2,
                 is_available := true, match_id := none } : TimeSlotInsertable))
              (daySlots req.slot_duration_minutes req.break_duration_minutes
                req.daily_start_minutes req.daily_end_minutes)))) =
        (if req.exclude_days.contains (d % 7) then []
         else List.map (fun p =>
            ({ tournament_id := req.tournament_id, court_id := c,
               start_time := d * 1440 + p.1, end_time := d * 1440 + p.2,
               is_available := true, match_id := none } : TimeSlotInsertable))
            (daySlots req.slot_duration_minutes req.break_duration_minutes
              req.daily_start_minutes req.daily_end_minutes)) := by
      intro d
      by_cases hx : req.exclude_days.contains (d % 7)
      · rw [if_pos hx, if_pos hx]
        rfl
      · rw [if_neg hx, if_neg hx, List.filter_flatMap]
        simp only [hcourt d]
        exact flatMap_single_of_nodup req.court_ids c _ hnd hc
    simp only [hinner]
    rw [flatMap_ite_eq_filter_flatMap, List.map_flatMap]
    simp only [List.map_map]
    rfl

/-- Concrete bulk request used by the C5 witness: two courts, days 0
and 1, a 09:00-12:00 window with 60-minute slots and no breaks. -/
def c5Req : TimeSlotBulkCreate :=
  { tournament_id := 1, court_ids := [1, 2], start_day := 0, end_day := 1,
    slot_duration_minutes := 60, break_duration_minutes := 0,
    daily_start_minutes := 540, daily_end_minutes := 720, exclude_days := [] }

/-- Witness for C5: 2 courts, 2 days and 3 slots per day give exactly
12 generated records. -/
theorem C5_bulk_count_witness :
    (bulk_create_time_slots c5Req).length =
      c5Req.court_ids.length * ((activeDays c5Req).length *
        slotsPerDayFrom c5Req.slot_duration_minutes c5Req.break_duration_minutes
          c5Req.daily_end_minutes c5Req.daily_start_minutes) ∧
    (bulk_create_time_slots c5Req).length = 12 :=
  ⟨(C5_bulk_count c5Req (by decide) (by decide)).1, by decide⟩

/-! ## Claim C6: the per-court no-overlap invariant -/

/-- Strict half-open overlap of two intervals. -/
def overlapsB (aStart aEnd bStart bEnd : Nat) : Bool :=
  decide (aStart < bEnd) && decide (bStart < aEnd)

/-- Decidable check of the claimed store invariant: no two persisted
slots on the same court overlap. -/
def perCourtNoOverlapB : List TimeSlot → Bool
  | [] => true
  | s :: rest =>
    rest.all (fun s2 => s.court_id != s2.court_id ||
      !(overlapsB s.start_time s.end_time s2.start_time s2.end_time)) &&
    perCourtNoOverlapB rest

/-- Requests of the C6 counterexample: one conflict-checked single
create, then a bulk generation over the same court and times. -/
def c6Ops : List SlotOp :=
  [.create 1 { court_id := 1, start_time := 600, end_time := 660, is_available := true },
   .bulk { tournament_id := 1, court_ids := [1], start_day := 0, end_day := 0,
           slot_duration_minutes := 30, break_duration_minutes := 0,
           daily_start_minutes := 600, daily_end_minutes := 720, exclude_days := [] }]

/-- Counterexample to C6 as stated: bulk generation runs no conflict
check, so the state reached by creating slot [10:00, 11:00) on court 1
and then bulk-generating 30-minute slots from 10:00 on the same court
holds overlapping slots on one court. -/
theorem C6_counterexample :
    perCourtNoOverlapB (execOps initState c6Ops).slots = false := by decide

/-- Requests that preserve the invariant: everything except bulk
generation and court reassignment through the update dictionary. -/
def safeOp : SlotOp → Prop
  | .bulk _ => False
  | .updateSlot _ u => u.court_id = none
  | _ => True

/-- Id-keyed statement of the per-(tournament, court) no-overlap
invariant. -/
def sameTCNoOverlap (slots : List TimeSlot) : Prop :=
  ∀ s1 ∈ slots, ∀ s2 ∈ slots, s1.id ≠ s2.id →
    s1.tournament_id = s2.tournament_id → s1.court_id = s2.court_id →
    ¬(s1.start_time < s2.end_time ∧ s2.start_time < s1.end_time)

/-- Inductive invariant of the slot store: ids are positive, fresh and
distinct, and no two rows of one (tournament, court) pair overlap. -/
def DbInv (db : DbState) : Prop :=
  1 ≤ db.nextSlotId ∧
  (∀ s ∈ db.slots, 1 ≤ s.id ∧ s.id < db.nextSlotId) ∧
  (db.slots.map (fun s => s.id)).Nodup ∧
  sameTCNoOverlap db.slots

/-- An empty conflict-check result with no exclusion means no persisted
slot of the (tournament, court) pair overlaps the proposal. -/
lemma check_conflicts_empty_none (slots : List TimeSlot) (tid cid st en : Nat)
    (h : (check_slot_conflicts slots tid cid st en none).isEmpty) :
    ∀ s ∈ slots, s.tournament_id = tid → s.court_id = cid →
      ¬(s.start_time < en ∧ st < s.end_time) := by
  intro s hs h1 h2 hov
  have hmem : s ∈ check_slot_conflicts slots tid cid st en none := by
    unfold check_slot_conflicts
    exact (mem_conflict_base slots tid cid st en s).mpr ⟨hs, h1, h2, hov.1, hov.2⟩
  rw [List.isEmpty_iff] at h
  rw [h] at hmem
  cases hmem

/-- An empty conflict-check result with a nonzero excluded id means no
other persisted slot of the (tournament, court) pair overlaps the
proposal. -/
lemma check_conflicts_empty_some (slots : List TimeSlot) (tid cid st en sid : Nat)
    (hsid : sid ≠ 0)
    (h : (check_slot_conflicts slots tid cid st en (some sid)).isEmpty) :
    ∀ s ∈ slots, s.id ≠ sid → s.tournament_id = tid → s.court_id = cid →
      ¬(s.start_time < en ∧ st < s.end_time) := by
  intro s hs hne h1 h2 hov
  have hmem : s ∈ check_slot_conflicts slots tid cid st en (some sid) := by
    simp only [check_slot_conflicts]
    rw [if_pos (by simpa using hsid)]
    exact List.mem_filter.mpr
      ⟨(mem_conflict_base slots tid cid st en s).mpr ⟨hs, h1, h2, hov.1, hov.2⟩,
       by simpa using hne⟩
  rw [List.isEmpty_iff] at h
  rw [h] at hmem
  cases hmem

/-- Mapping a row transformation that keeps ids keeps the id list. -/
lemma ids_map_eq (slots : List TimeSlot) (f : TimeSlot → TimeSlot)
    (hf : ∀ s, (f s).id = s.id) :
    (slots.map f).map (fun s => s.id) = slots.map (fun s => s.id) := by
  rw [List.map_map]
  apply List.map_congr_left
  intro s hs
  exact hf s

/-- A row transformation that keeps id, tournament, court and bounds
preserves the store invariant. -/
lemma DbInv_map_fields (db : DbState) (f : TimeSlot → TimeSlot)
    (hf : ∀ s, (f s).id = s.id ∧ (f s).tournament_id = s.tournament_id ∧
      (f s).court_id = s.court_id ∧ (f s).start_time = s.start_time ∧
      (f s).end_time = s.end_time)
    (hinv : DbInv db) : DbInv { db with slots := db.slots.map f } := by
  obtain ⟨hn, hid, hnd, hov⟩ := hinv
  refine ⟨hn, ?_, ?_, ?_⟩
  · intro s hs
    obtain ⟨s0, hs0, rfl⟩ := List.mem_map.mp hs
    rw [(hf s0).1]
    exact hid s0 hs0
  · rw [ids_map_eq db.slots f (fun s => (hf s).1)]
    exact hnd
  · intro s1 hs1 s2 hs2 hne ht hc hov2
    obtain ⟨a, ha, rfl⟩ := List.mem_map.mp hs1
    obtain ⟨b, hb, rfl⟩ := List.mem_map.mp hs2
    obtain ⟨ha1, ha2, ha3, ha4, ha5⟩ := hf a
    obtain ⟨hb1, hb2, hb3, hb4, hb5⟩ := hf b
    rw [ha1, hb1] at hne
    rw [ha2, hb2] at ht
    rw [ha3, hb3] at hc
    rw [ha4, ha5, hb4, hb5] at hov2
    exact hov a ha b hb hne ht hc hov2

/-- Removing rows preserves the store invariant. -/
lemma DbInv_filter (db : DbState) (p : TimeSlot → Bool) (hinv : DbInv db) :
    DbInv { db with slots := db.slots.filter p } := by
  obtain ⟨hn, hid, hnd, hov⟩ := hinv
  refine ⟨hn, fun s hs => hid s (List.mem_of_mem_filter hs), ?_, ?_⟩
  · exact List.Nodup.sublist ((List.filter_sublist db.slots).map (fun s => s.id)) hnd
  · intro s1 hs1 s2 hs2 hne ht hc
    exact hov s1 (List.mem_of_mem_filter hs1) s2 (List.mem_of_mem_filter hs2) hne ht hc

/-- Appending a fresh row that overlaps no row of its
(tournament, court) pair preserves the store invariant. -/
lemma DbInv_append (db : DbState) (ns : TimeSlot)
    (hid0 : ns.id = db.nextSlotId)
    (hnoov : ∀ s ∈ db.slots, s.tournament_id = ns.tournament_id →
      s.court_id = ns.court_id →
      ¬(s.start_time < ns.end_time ∧ ns.start_time < s.end_time))
    (hinv : DbInv db) :
    DbInv { slots := db.slots ++ [ns], nextSlotId := db.nextSlotId + 1 } := by
  obtain ⟨hn, hid, hnd, hov⟩ := hinv
  refine ⟨?_, ?_, ?_, ?_⟩
  · show 1 ≤ db.nextSlotId + 1
    omega
  · show ∀ s ∈ db.slots ++ [ns], 1 ≤ s.id ∧ s.id < db.nextSlotId + 1
    intro s hs
    rcases List.mem_append.mp hs with h | h
    · have := hid s h
      omega
    · rw [List.mem_singleton] at h
      subst h
      omega
  · rw [List.map_append, List.nodup_append]
    refine ⟨hnd, List.nodup_singleton _, ?_⟩
    intro x hx
    obtain ⟨s, hs, rfl⟩ := List.mem_map.mp hx
    have := hid s hs
    simp only [List.map_cons, List.map_nil, List.mem_singleton]
    omega
  · intro s1 hs1 s2 hs2 hne ht hcid hov2
    rcases List.mem_append.mp hs1 with h1 | h1 <;>
      rcases List.mem_append.mp hs2 with h2 | h2
    · exact hov s1 h1 s2 h2 hne ht hcid hov2
    · rw [List.mem_singleton] at h2
      subst h2
      exact hnoov s1 h1 ht hcid hov2
    · rw [List.mem_singleton] at h1
      subst h1
      exact hnoov s2 h2 ht.symm hcid.symm ⟨hov2.2, hov2.1⟩
    · rw [List.mem_singleton] at h1
      rw [List.mem_singleton] at h2
      subst h1
      subst h2
      exact absurd rfl hne

/-- The conflict-checked single create preserves the store invariant. -/
lemma DbInv_create (db : DbState) (tid : Nat) (body : TimeSlotBody)
    (hinv : DbInv db) : DbInv (create_new_time_slot db tid body).2 := by
  unfold create_new_time_slot
  by_cases hc : (check_slot_conflicts db.slots tid body.court_id body.start_time
      body.end_time none).isEmpty
  · rw [if_pos hc]
    by_cases hu : uniqueViolation db.slots body.court_id body.start_time body.end_time
    · rw [if_pos hu]
      exact hinv
    · rw [if_neg hu]
      have hcc := check_conflicts_empty_none db.slots tid body.court_id body.start_time
        body.end_time hc
      exact DbInv_append db _ rfl (fun s hs h1 h2 hov3 => hcc s hs h1 h2 hov3) hinv
  · rw [if_neg hc]
    exact hinv

/-- A time-only update through the update route preserves the store
invariant: either no time field is supplied and the bounds are
unchanged, or the re-run conflict check guarantees the new bounds are
clear of every other row of the pair. -/
lemma DbInv_update (db : DbState) (sid : Nat) (u : SlotUpdates)
    (hsafe : u.court_id = none) (hinv : DbInv db) :
    DbInv (update_time_slot_info db sid u).2 := by
  obtain ⟨hn, hid, hnd, hov⟩ := hinv
  cases hfind : db.slots.find? (fun s => s.id == sid) with
  | none =>
    unfold update_time_slot_info
    rw [hfind]
    exact ⟨hn, hid, hnd, hov⟩
  | some ex0 =>
    have hex_mem : ex0 ∈ db.slots := List.mem_of_find?_eq_some hfind
    have hex_id : ex0.id = sid := by simpa using List.find?_some hfind
    have hsid1 : 1 ≤ sid := by
      have := hid ex0 hex_mem
      omega
    unfold update_time_slot_info
    rw [hfind]
    simp only []
    by_cases hguard : (u.start_time.isSome || u.end_time.isSome) &&
        !(check_slot_conflicts db.slots ex0.tournament_id ex0.court_id
            (u.start_time.getD ex0.start_time) (u.end_time.getD ex0.end_time)
            (some sid)).isEmpty
    · rw [if_pos hguard]
      exact ⟨hn, hid, hnd, hov⟩
    · rw [if_neg hguard]
      by_cases huniq : db.slots.any (fun s =>
          s.id != sid && s.court_id == (apply_updates ex0 u).court_id &&
          s.start_time == (apply_updates ex0 u).start_time &&
          s.end_time == (apply_updates ex0 u).end_time)
      · rw [if_pos huniq]
        exact ⟨hn, hid, hnd, hov⟩
      · rw [if_neg huniq]
        have hfid : ∀ s : TimeSlot,
            ((if s.id == sid then apply_updates s u else s) : TimeSlot).id = s.id := by
          intro s
          by_cases h : s.id == sid <;> simp [h, apply_updates]
        by_cases htime : (u.start_time.isSome || u.end_time.isSome)
        · have hempty : (check_slot_conflicts db.slots ex0.tournament_id ex0.court_id
              (u.start_time.getD ex0.start_time) (u.end_time.getD ex0.end_time)
              (some sid)).isEmpty := by
            by_contra hne2
            exact hguard (by simp [htime, hne2])
          have hcc := check_conflicts_empty_some db.slots ex0.tournament_id ex0.court_id
            (u.start_time.getD ex0.start_time) (u.end_time.getD ex0.end_time) sid
            (by omega) hempty
          refine ⟨hn, ?_, ?_, ?_⟩
          · intro s hs
            obtain ⟨s0, hs0, rfl⟩ := List.mem_map.mp hs
            rw [hfid s0]
            exact hid s0 hs0
          · rw [ids_map_eq db.slots _ hfid]
            exact hnd
          · intro s1 hs1 s2 hs2 hne ht hcid hov2
            obtain ⟨a, ha, rfl⟩ := List.mem_map.mp hs1
            obtain ⟨b, hb, rfl⟩ := List.mem_map.mp hs2
            rw [hfid a, hfid b] at hne
            by_cases hasid : a.id = sid <;> by_cases hbsid : b.id = sid
            · exact absurd (hasid.trans hbsid.symm) hne
            · have haex : a = ex0 :=
                List.inj_on_of_nodup_map hnd ha hex_mem (hasid.trans hex_id.symm)
              subst haex
              rw [if_pos (by simpa using hasid), if_neg (by simpa using hbsid)] at ht hcid hov2
              simp only [apply_updates] at ht hcid hov2
              rw [hsafe] at hcid
              simp only [Option.getD_none] at hcid
              exact hcc b hb hbsid ht.symm hcid.symm ⟨hov2.2, hov2.1⟩
            · have hbex : b = ex0 :=
                List.inj_on_of_nodup_map hnd hb hex_mem (hbsid.trans hex_id.symm)
              subst hbex
              rw [if_neg (by simpa using hasid), if_pos (by simpa using hbsid)] at ht hcid hov2
              simp only [apply_updates] at ht hcid hov2
              rw [hsafe] at hcid
              simp only [Option.getD_none] at hcid
              exact hcc a ha hasid ht hcid ⟨hov2.1, hov2.2⟩
            · rw [if_neg (by simpa using hasid), if_neg (by simpa using hbsid)] at ht hcid hov2
              exact hov a ha b hb hne ht hcid hov2
        · have hst : u.start_time = none := by
            cases h : u.start_time with
            | none => rfl
            | some v => rw [h] at htime; simp at htime
          have hen : u.end_time = none := by
            cases h : u.end_time with
            | none => rfl
            | some v => rw [h] at htime; simp at htime
          exact DbInv_map_fields db _
            (fun s => by
              by_cases h : s.id == sid <;> simp [h, apply_updates, hst, hen, hsafe])
            ⟨hn, hid, hnd, hov⟩

/-- Match assignment preserves the store invariant (it never changes
bounds or court). -/
lemma DbInv_assign (db : DbState) (sid mid : Nat) (hinv : DbInv db) :
    DbInv (assign_match_to_time_slot db sid mid).2 := by
  unfold assign_match_to_time_slot
  cases hfind : db.slots.find? (fun s => s.id == sid) with
  | none => exact hinv
  | some slot =>
    simp only []
    by_cases h1 : slot.is_available = false
    · rw [if_pos h1]
      exact hinv
    · rw [if_neg h1]
      by_cases h2 : truthyId slot.match_id
      · rw [if_pos h2]
        exact hinv
      · rw [if_neg h2]
        exact DbInv_map_fields db _
          (fun s => by by_cases h : s.id == sid <;> simp [h]) hinv

/-- Slot release preserves the store invariant. -/
lemma DbInv_release (db : DbState) (sid : Nat) (hinv : DbInv db) :
    DbInv (release_time_slot db sid).2 := by
  unfold release_time_slot
  cases hfind : db.slots.find? (fun s => s.id == sid) with
  | none => exact hinv
  | some slot =>
    simp only []
    by_cases h1 : !truthyId slot.match_id
    · rw [if_pos h1]
      exact hinv
    · rw [if_neg h1]
      exact DbInv_map_fields db _
        (fun s => by by_cases h : s.id == sid <;> simp [h]) hinv

/-- Slot deletion preserves the store invariant. -/
lemma DbInv_delete (db : DbState) (sid : Nat) (hinv : DbInv db) :
    DbInv (delete_time_slot_by_id db sid).2 := by
  unfold delete_time_slot_by_id
  cases hfind : db.slots.find? (fun s => s.id == sid) with
  | none => exact hinv
  | some slot =>
    simp only []
    by_cases h1 : truthyId slot.match_id
    · rw [if_pos h1]
      exact hinv
    · rw [if_neg h1]
      exact DbInv_filter db _ hinv

/-- Every safe request preserves the store invariant. -/
lemma DbInv_execOp (db : DbState) (op : SlotOp) (hsafe : safeOp op)
    (hinv : DbInv db) : DbInv (execOp db op) := by
  cases op with
  | create tid body => exact DbInv_create db tid body hinv
  | updateSlot sid u => exact DbInv_update db sid u hsafe hinv
  | bulk req => cases hsafe
  | assignMatch sid mid => exact DbInv_assign db sid mid hinv
  | release sid => exact DbInv_release db sid hinv
  | deleteSlot sid => exact DbInv_delete db sid hinv

/-- Safe request sequences preserve the store invariant. -/
lemma DbInv_execOps (db : DbState) (ops : List SlotOp)
    (hsafe : ∀ op ∈ ops, safeOp op) (hinv : DbInv db) :
    DbInv (execOps db ops) := by
  induction ops generalizing db with
  | nil => exact hinv
  | cons op ops ih =>
    exact ih (execOp db op)
      (fun o ho => hsafe o (List.mem_cons_of_mem op ho))
      (DbInv_execOp db op (hsafe op (List.mem_cons_self op ops)) hinv)

/-- The empty store satisfies the invariant. -/
lemma DbInv_init : DbInv initState := by
  refine ⟨le_refl 1, ?_, ?_, ?_⟩ <;> simp [initState, sameTCNoOverlap]

/-- C6 amended. For every state reachable through single-slot creates,
time-only updates, match assignment, release and deletion (no bulk
generation, no court reassignment), no two persisted slots of the same
(tournament, court) pair have overlapping [start, end) intervals: these
paths run the conflict check, keyed on (tournament, court), before
writing.  Bulk generation runs no conflict check and is excluded — see
the counterexample. -/
theorem C6_amended_no_overlap (ops : List SlotOp)
    (hsafe : ∀ op ∈ ops, safeOp op) :
    (execOps initState ops).slots.Pairwise (fun s1 s2 =>
      s1.tournament_id = s2.tournament_id → s1.court_id = s2.court_id →
      ¬(s1.start_time < s2.end_time ∧ s2.start_time < s1.end_time)) := by
  obtain ⟨hn, hid, hnd, hov⟩ := DbInv_execOps initState ops hsafe DbInv_init
  have hpw : (execOps initState ops).slots.Pairwise (fun a b => a.id ≠ b.id) :=
    List.pairwise_map.mp hnd
  exact hpw.imp_of_mem (fun {a b} hma hmb hne ht hc =>
    hov a hma b hmb hne ht hc)

/-- Safe request sequence used by the C6 witness: two touching slots on
one court. -/
def c6SafeOps : List SlotOp :=
  [.create 1 { court_id := 1, start_time := 600, end_time := 660, is_available := true },
   .create 1 { court_id := 1, start_time := 660, end_time := 720, is_available := true }]

/-- Witness for the amended C6 on a concrete safe request sequence. -/
theorem C6_amended_no_overlap_witness :
    (execOps initState c6SafeOps).slots.Pairwise (fun s1 s2 =>
      s1.tournament_id = s2.tournament_id → s1.court_id = s2.court_id →
      ¬(s1.start_time < s2.end_time ∧ s2.start_time < s1.end_time)) := by
  apply C6_amended_no_overlap c6SafeOps
  intro op hop
  rcases List.mem_cons.mp hop with rfl | hop
  · exact trivial
  · rcases List.mem_cons.mp hop with rfl | hop
    · exact trivial
    · cases hop

/-! ## Claim C7: assign and release -/

/-- Truthiness of a positive id. -/
lemma truthyId_some_pos (m : Nat) (h : 1 ≤ m) : truthyId (some m) = true := by
  simp only [truthyId, bne_iff_ne, ne_eq]
  omega

/-- C7. Assigning a match fails with InvalidState when the slot is
unavailable or already holds a match and leaves the store unchanged; on
success it sets `match_id` and clears `is_available` in the same write.
Releasing fails with InvalidState when no match is assigned and leaves
the store unchanged; on success it clears `match_id` and sets
`is_available` in the same write.  Match ids are positive (they are
database-generated keys protected by a foreign key), which the Python
truthiness test `if slot.match_id:` relies on. -/
theorem C7_assign_release (db : DbState) (sid mid : Nat) (slot : TimeSlot)
    (hfind : db.slots.find? (fun s => s.id == sid) = some slot)
    (hm : ∀ m, slot.match_id = some m → 1 ≤ m) :
    ((slot.is_available = false ∨ slot.match_id ≠ none) →
      assign_match_to_time_slot db sid mid = (.error .InvalidState, db)) ∧
    (slot.is_available = true ∧ slot.match_id = none →
      (assign_match_to_time_slot db sid mid).1 =
        .ok { slot with match_id := some mid, is_available := false } ∧
      (assign_match_to_time_slot db sid mid).2.slots =
        db.slots.map (fun s => if s.id == sid then
          { s with match_id := some mid, is_available := false } else s)) ∧
    (slot.match_id = none →
      release_time_slot db sid = (.error .InvalidState, db)) ∧
    (∀ m, slot.match_id = some m →
      (release_time_slot db sid).1 =
        .ok { slot with match_id := none, is_available := true } ∧
      (release_time_slot db sid).2.slots =
        db.slots.map (fun s => if s.id == sid then
          { s with match_id := none, is_available := true } else s)) := by
  refine ⟨?_, ?_, ?_, ?_⟩
  · intro hbad
    unfold assign_match_to_time_slot
    rw [hfind]
    simp only []
    by_cases hav : slot.is_available = false
    · rw [if_pos hav]
    · rw [if_neg hav]
      rcases hbad with hb | hb
      · exact absurd hb hav
      · obtain ⟨m, hm2⟩ := Option.ne_none_iff_exists'.mp hb
        have hm1 := hm m hm2
        have htr : truthyId slot.match_id = true := by
          rw [hm2]
          exact truthyId_some_pos m hm1
        rw [if_pos htr]
  · intro hgood
    unfold assign_match_to_time_slot
    rw [hfind]
    simp only []
    rw [if_neg (by rw [hgood.1]; simp), if_neg (by rw [hgood.2]; simp [truthyId])]
    exact ⟨rfl, rfl⟩
  · intro hmn
    unfold release_time_slot
    rw [hfind]
    simp only []
    rw [if_pos (by rw [hmn]; simp [truthyId])]
  · intro m hm2
    have hm1 := hm m hm2
    unfold release_time_slot
    rw [hfind]
    simp only []
    rw [if_neg (by rw [hm2, truthyId_some_pos m hm1]; simp)]
    exact ⟨rfl, rfl⟩

/-- Slot used by the C7 witness: unavailable with no match, as a
rejected client-created slot state. -/
def c7Slot : TimeSlot :=
  { id := 1, tournament_id := 1, court_id := 1, start_time := 600,
    end_time := 660, is_available := false, match_id := none }

/-- Store used by the C7 witness. -/
def c7Db : DbState := { slots := [c7Slot], nextSlotId := 2 }

/-- Witness for C7: on an unavailable unassigned slot both assign and
release fail with InvalidState and leave the store unchanged. -/
theorem C7_assign_release_witness :
    assign_match_to_time_slot c7Db 1 5 = (.error .InvalidState, c7Db) ∧
    release_time_slot c7Db 1 = (.error .InvalidState, c7Db) :=
  ⟨(C7_assign_release c7Db 1 5 c7Slot (by decide) (fun m h => nomatch h)).1 (Or.inl rfl),
   (C7_assign_release c7Db 1 5 c7Slot (by decide) (fun m h => nomatch h)).2.2.1 rfl⟩

/-! ## Claim C8: referee-match assignment -/

/-- C8. Assigning a referee to a match fails with NotFound when the
referee does not exist; with InvalidArgument when the role is outside
{main, assistant, line_judge, video_referee}; with a duplicate-key
Conflict when the (referee, match, role) triple already exists; and
succeeds otherwise — in particular for a new role on an already linked
(referee, match) pair. -/
theorem C8_assign_referee (st : RefState) (mid rid : Nat) (role : String)
    (confirmed : Bool) (notes : Option String) :
    ((∀ r ∈ st.referees, r.id ≠ rid) →
      assign_referee st mid rid role confirmed notes = (.error .NotFound, st)) ∧
    ((∃ r ∈ st.referees, r.id = rid) → role ∉ valid_roles →
      assign_referee st mid rid role confirmed notes = (.error .InvalidArgument, st)) ∧
    ((∃ r ∈ st.referees, r.id = rid) → role ∈ valid_roles →
      (∃ a ∈ st.assignments, a.referee_id = rid ∧ a.match_id = mid ∧ a.role = role) →
      assign_referee st mid rid role confirmed notes = (.error .Conflict, st)) ∧
    ((∃ r ∈ st.referees, r.id = rid) → role ∈ valid_roles →
      (∀ a ∈ st.assignments, ¬(a.referee_id = rid ∧ a.match_id = mid ∧ a.role = role)) →
      assign_referee st mid rid role confirmed notes =
        (.ok { referee_id := rid, match_id := mid, role := role,
               confirmed := confirmed, notes := notes },
         { st with assignments := st.assignments ++
            [{ referee_id := rid, match_id := mid, role := role,
               confirmed := confirmed, notes := notes }] })) := by
  refine ⟨?_, ?_, ?_, ?_⟩
  · intro habs
    unfold assign_referee
    rw [List.find?_eq_none.mpr (fun r hr => by simpa using habs r hr)]
  · rintro ⟨r, hr, hrid⟩ hrole
    unfold assign_referee
    cases hf : st.referees.find? (fun r => r.id == rid) with
    | none =>
      rw [List.find?_eq_none] at hf
      exact absurd hrid (by simpa using hf r hr)
    | some r0 =>
      simp only []
      rw [if_pos (by simpa using hrole)]
  · rintro ⟨r, hr, hrid⟩ hrole ⟨a, ha, h1, h2, h3⟩
    unfold assign_referee
    cases hf : st.referees.find? (fun r => r.id == rid) with
    | none =>
      rw [List.find?_eq_none] at hf
      exact absurd hrid (by simpa using hf r hr)
    | some r0 =>
      simp only []
      rw [if_neg (by simpa using hrole)]
      rw [if_pos (List.any_eq_true.mpr ⟨a, ha, by simp [h1, h2, h3]⟩)]
  · rintro ⟨r, hr, hrid⟩ hrole hnodup
    unfold assign_referee
    cases hf : st.referees.find? (fun r => r.id == rid) with
    | none =>
      rw [List.find?_eq_none] at hf
      exact absurd hrid (by simpa using hf r hr)
    | some r0 =>
      simp only []
      rw [if_neg (by simpa using hrole)]
      rw [if_neg (by
        intro hany
        obtain ⟨a, ha, hpa⟩ := List.any_eq_true.mp hany
        simp only [Bool.and_eq_true, beq_iff_eq] at hpa
        exact hnodup a ha ⟨hpa.1.1, hpa.1.2, hpa.2⟩)]

/-- Referee state used by the C8 witness: one referee already assigned
to match 2 as main referee. -/
def c8State : RefState :=
  { referees := [{ id := 1, name := "A", active := true }],
    assignments := [{ referee_id := 1, match_id := 2, role := "main",
                      confirmed := false, notes := none }] }

/-- Witness for C8: duplicating the (referee, match, role) triple fails
with Conflict while a different role for the same pair succeeds. -/
theorem C8_assign_referee_witness :
    assign_referee c8State 2 1 "main" false none = (.error .Conflict, c8State) ∧
    assign_referee c8State 2 1 "assistant" false none =
      (.ok { referee_id := 1, match_id := 2, role := "assistant",
             confirmed := false, notes := none },
       { c8State with assignments := c8State.assignments ++
          [{ referee_id := 1, match_id := 2, role := "assistant",
             confirmed := false, notes := none }] }) :=
  ⟨(C8_assign_referee c8State 2 1 "main" false none).2.2.1
      ⟨{ id := 1, name := "A", active := true }, by simp [c8State], rfl⟩
      (by simp [valid_roles])
      ⟨{ referee_id := 1, match_id := 2, role := "main", confirmed := false, notes := none },
       by simp [c8State], rfl, rfl, rfl⟩,
   (C8_assign_referee c8State 2 1 "assistant" false none).2.2.2
      ⟨{ id := 1, name := "A", active := true }, by simp [c8State], rfl⟩
      (by simp [valid_roles])
      (by
        intro a ha
        simp only [c8State, List.mem_singleton] at ha
        subst ha
        rintro ⟨h1, h2, h3⟩
        exact absurd h3 (by decide))⟩

/-! ## Claim C9: partial update of an assignment -/

/-- C9. The assignment update is partial: identity fields and role
never change, unsupplied fields keep their values and supplied fields
take the supplied values, on every row matching the (referee, match)
pair; the route fails with NotFound exactly when no row matches the
pair or no update field was supplied. -/
theorem C9_update_assignment_fields (st : RefState) (mid rid : Nat)
    (confirmed : Option Bool) (notes : Option String) :
    ((update_referee_match_assignment st mid rid confirmed notes).1 =
        .error .NotFound ↔
      (∀ a ∈ st.assignments, ¬(a.referee_id = rid ∧ a.match_id = mid)) ∨
        (confirmed = none ∧ notes = none)) ∧
    (∀ b : RefereeAssignment,
      (update_referee_match_assignment st mid rid confirmed notes).1 = .ok b →
      (update_referee_match_assignment st mid rid confirmed notes).2.assignments =
        st.assignments.map (fun a =>
          if a.referee_id == rid && a.match_id == mid
          then apply_assignment_update a confirmed notes else a)) ∧
    (∀ a : RefereeAssignment,
      (apply_assignment_update a confirmed notes).referee_id = a.referee_id ∧
      (apply_assignment_update a confirmed notes).match_id = a.match_id ∧
      (apply_assignment_update a confirmed notes).role = a.role ∧
      (confirmed = none →
        (apply_assignment_update a confirmed notes).confirmed = a.confirmed) ∧
      (notes = none → (apply_assignment_update a confirmed notes).notes = a.notes) ∧
      (∀ c, confirmed = some c →
        (apply_assignment_update a confirmed notes).confirmed = c) ∧
      (∀ v, notes = some v →
        (apply_assignment_update a confirmed notes).notes = some v)) := by
  have hfields : ∀ a : RefereeAssignment,
      (apply_assignment_update a confirmed notes).referee_id = a.referee_id ∧
      (apply_assignment_update a confirmed notes).match_id = a.match_id ∧
      (apply_assignment_update a confirmed notes).role = a.role ∧
      (confirmed = none →
        (apply_assignment_update a confirmed notes).confirmed = a.confirmed) ∧
      (notes = none → (apply_assignment_update a confirmed notes).notes = a.notes) ∧
      (∀ c, confirmed = some c →
        (apply_assignment_update a confirmed notes).confirmed = c) ∧
      (∀ v, notes = some v →
        (apply_assignment_update a confirmed notes).notes = some v) := by
    intro a
    refine ⟨rfl, rfl, rfl, ?_, ?_, ?_, ?_⟩
    · intro h
      subst h
      rfl
    · intro h
      subst h
      rfl
    · intro c h
      subst h
      rfl
    · intro v h
      subst h
      rfl
  by_cases hno : (confirmed.isNone && notes.isNone) = true
  · have hura : update_referee_assignment st.assignments rid mid confirmed notes =
        (none, st.assignments) := by
      unfold update_referee_assignment
      rw [if_pos hno]
    refine ⟨?_, ?_, hfields⟩
    · unfold update_referee_match_assignment
      rw [hura]
      constructor
      · intro _
        right
        have h1 := Bool.and_eq_true_iff.mp hno
        exact ⟨Option.isNone_iff_eq_none.mp h1.1, Option.isNone_iff_eq_none.mp h1.2⟩
      · intro _
        rfl
    · intro b hb
      unfold update_referee_match_assignment at hb
      rw [hura] at hb
      exact absurd hb (by simp)
  · cases hfil : st.assignments.filter
        (fun a => a.referee_id == rid && a.match_id == mid) with
    | nil =>
      have hura : update_referee_assignment st.assignments rid mid confirmed notes =
          (none, st.assignments) := by
        unfold update_referee_assignment
        rw [if_neg hno, hfil]
      refine ⟨?_, ?_, hfields⟩
      · unfold update_referee_match_assignment
        rw [hura]
        constructor
        · intro _
          left
          intro a ha hpair
          have hmem : a ∈ st.assignments.filter
              (fun a => a.referee_id == rid && a.match_id == mid) :=
            List.mem_filter.mpr ⟨ha, by simp [hpair.1, hpair.2]⟩
          rw [hfil] at hmem
          cases hmem
        · intro _
          rfl
      · intro b hb
        unfold update_referee_match_assignment at hb
        rw [hura] at hb
        exact absurd hb (by simp)
    | cons a0 tail =>
      have hura : update_referee_assignment st.assignments rid mid confirmed notes =
          (some (apply_assignment_update a0 confirmed notes),
           st.assignments.map (fun a =>
            if a.referee_id == rid && a.match_id == mid
            then apply_assignment_update a confirmed notes else a)) := by
        unfold update_referee_assignment
        rw [if_neg hno, hfil]
      have ha0 : a0 ∈ st.assignments ∧ a0.referee_id = rid ∧ a0.match_id = mid := by
        have hmem : a0 ∈ st.assignments.filter
            (fun a => a.referee_id == rid && a.match_id == mid) := by
          rw [hfil]
          exact List.mem_cons_self a0 tail
        have h2 := List.mem_filter.mp hmem
        refine ⟨h2.1, ?_⟩
        have h3 := h2.2
        simp only [Bool.and_eq_true, beq_iff_eq] at h3
        exact h3
      refine ⟨?_, ?_, hfields⟩
      · unfold update_referee_match_assignment
        rw [hura]
        constructor
        · intro h
          exact absurd h (by simp)
        · rintro (hall | hnone)
          · exact absurd ha0.2 (hall a0 ha0.1)
          · exact absurd (by simp [hnone.1, hnone.2] : (confirmed.isNone && notes.isNone) = true) hno
      · intro b hb
        unfold update_referee_match_assignment
        rw [hura]

/-- Referee state used by the C9 witness. -/
def c9State : RefState :=
  { referees := [{ id := 1, name := "B", active := true }],
    assignments := [{ referee_id := 1, match_id := 2, role := "main",
                      confirmed := false, notes := none }] }

/-- Witness for C9: with no update field supplied the route returns
NotFound although the row exists, and supplying only `confirmed`
changes exactly that field on the matching row. -/
theorem C9_update_assignment_fields_witness :
    (update_referee_match_assignment c9State 2 1 none none).1 = .error .NotFound ∧
    (update_referee_match_assignment c9State 2 1 (some true) none).2.assignments =
      c9State.assignments.map (fun a =>
        if a.referee_id == 1 && a.match_id == 2
        then apply_assignment_update a (some true) none else a) :=
  ⟨(C9_update_assignment_fields c9State 2 1 none none).1.mpr (Or.inr ⟨rfl, rfl⟩),
   (C9_update_assignment_fields c9State 2 1 (some true) none).2.1
     { referee_id := 1, match_id := 2, role := "main", confirmed := true, notes := none }
     rfl⟩

/-! ## Claim C10: single create forces an unassigned slot -/

/-- Searching an appended list when the first part has no hit. -/
lemma find?_append_of_none {α : Type} (l1 l2 : List α) (p : α → Bool)
    (h : l1.find? p = none) : (l1 ++ l2).find? p = l2.find? p := by
  induction l1 with
  | nil => rfl
  | cons a l ih =>
    cases hpa : p a with
    | true =>
      rw [List.find?_cons_of_pos _ hpa] at h
      cases h
    | false =>
      rw [List.find?_cons_of_neg _ (by simp [hpa])] at h
      rw [List.cons_append, List.find?_cons_of_neg _ (by simp [hpa])]
      exact ih h

/-- C10. The persisted row of a single-slot create always has
`match_id = None` — the request body carries no such field — while
`is_available` is taken verbatim from the body; in particular a client
may create a slot that is unavailable yet holds no match, a state both
assign and release reject with InvalidState. -/
theorem C10_create_forces_unassigned (db : DbState) (tid mid : Nat)
    (body : TimeSlotBody) (hids : ∀ s ∈ db.slots, s.id < db.nextSlotId) :
    (create_time_slot db tid body).1.match_id = none ∧
    (create_time_slot db tid body).1.is_available = body.is_available ∧
    (create_time_slot db tid body).1 ∈ (create_time_slot db tid body).2.slots ∧
    (body.is_available = false →
      (assign_match_to_time_slot (create_time_slot db tid body).2
          (create_time_slot db tid body).1.id mid).1 = .error .InvalidState ∧
      (assign_match_to_time_slot (create_time_slot db tid body).2
          (create_time_slot db tid body).1.id mid).2 = (create_time_slot db tid body).2 ∧
      (release_time_slot (create_time_slot db tid body).2
          (create_time_slot db tid body).1.id).1 = .error .InvalidState ∧
      (release_time_slot (create_time_slot db tid body).2
          (create_time_slot db tid body).1.id).2 = (create_time_slot db tid body).2) := by
  have hfind : (create_time_slot db tid body).2.slots.find?
      (fun s => s.id == (create_time_slot db tid body).1.id) =
      some (create_time_slot db tid body).1 := by
    show (db.slots ++ [(create_time_slot db tid body).1]).find?
        (fun s => s.id == db.nextSlotId) = some (create_time_slot db tid body).1
    rw [find?_append_of_none db.slots _ _ (List.find?_eq_none.mpr (fun s hs => by
      have := hids s hs
      simp only [beq_iff_eq]
      omega))]
    have hp : ((create_time_slot db tid body).1.id == db.nextSlotId) = true := by
      simp [create_time_slot]
    rw [List.find?_singleton, if_pos hp]
  refine ⟨rfl, rfl, List.mem_append.mpr (Or.inr (List.mem_singleton.mpr rfl)), ?_⟩
  intro hunav
  refine ⟨?_, ?_, ?_, ?_⟩
  · unfold assign_match_to_time_slot
    rw [hfind]
    simp only []
    rw [if_pos (show (create_time_slot db tid body).1.is_available = false from hunav)]
  · unfold assign_match_to_time_slot
    rw [hfind]
    simp only []
    rw [if_pos (show (create_time_slot db tid body).1.is_available = false from hunav)]
  · unfold release_time_slot
    rw [hfind]
    simp only []
    rw [if_pos (by rfl)]
  · unfold release_time_slot
    rw [hfind]
    simp only []
    rw [if_pos (by rfl)]

/-- Witness for C10: creating a slot with `is_available = false` on the
empty store yields an unavailable, unassigned slot rejected by both
assign and release. -/
theorem C10_create_forces_unassigned_witness :
    (create_time_slot initState 1
        { court_id := 1, start_time := 600, end_time := 660,
          is_available := false }).1.match_id = none ∧
    (assign_match_to_time_slot
        (create_time_slot initState 1
          { court_id := 1, start_time := 600, end_time := 660,
            is_available := false }).2 1 5).1 = .error .InvalidState := by
  have h := C10_create_forces_unassigned initState 1 5
    { court_id := 1, start_time := 600, end_time := 660, is_available := false }
    (fun s hs => by cases hs)
  exact ⟨h.1, (h.2.2.2 rfl).1⟩

/-- Witness for C3, the containment example of the specification: a
referee declaring [09:00, 17:00) is not a candidate for the proposal
[08:00, 09:30), although the windows partially overlap. -/
theorem C3_candidate_set_exact_witness :
    ({ id := 1, name := "A", active := true } : Referee) ∉
      candidate_referees [{ id := 1, name := "A", active := true }]
        [{ referee_id := 1, tournament_id := 1, available_from := 540,
           available_to := 1020 }] 1 480 570 := by
  intro hmem
  have h := (C3_candidate_set_exact [{ id := 1, name := "A", active := true }]
      [{ referee_id := 1, tournament_id := 1, available_from := 540,
         available_to := 1020 }] [] [] 1 480 570
      { id := 1, name := "A", active := true }).1.mp hmem
  obtain ⟨_, _, a, ha, h1, h2, h3, h4⟩ := h
  simp only [List.mem_singleton] at ha
  subst ha
  exact absurd h3 (by decide)
